import Mathlib

/-!
Verification development for the outage-dashboard repository.

The repository's core is the outage aggregation engine shared (with small
variations) by several React dashboard components, plus an import
normalizer, a query/view layer (filter + sort + pagination) and two tiny
HTTP snapshot-store functions.  This file gives a shallow embedding of
those parts, translated from the JavaScript source:

* machine numbers are modelled exactly: consumer counts are `Int`
  (the imported values are integer counts; JS `Number` is restricted to
  integer literals by `jsNumber`), and the percentage statistic
  `pct = Math.round(x * 10) / 10`, which always has denominator 10, is
  represented by its exact numerator in tenths (`pctTenths`, so the
  displayed `33.3` is `333`);
* JS objects used as string-keyed boolean maps (`feederOut`) are
  association lists with in-place update (`setKey`) and
  undefined-defaults-to-false lookup (`lookupB`);
* `Array.prototype.sort` (stable, comparator based) is modelled by an
  insertion sort with a boolean comparator; `String.localeCompare`
  ascending is modelled by the codepoint order on strings;
* `crypto.randomUUID()` is modelled by a deterministic fresh identifier
  derived from the row position (no claim depends on id values).
-/

namespace Outage

/-- JS helper: the expression `s || d` on strings, where only the empty
string is falsy. -/
def jsOr (s d : String) : String :=
  if s = "" then d else s

/-- Whitespace trimming on a character list. -/
def trimChars (l : List Char) : List Char :=
  ((l.dropWhile Char.isWhitespace).reverse.dropWhile Char.isWhitespace).reverse

/-- JS `s.trim()` (computed on the character list so that it evaluates
inside the kernel). -/
def jsTrim (s : String) : String :=
  String.mk (trimChars s.data)

/-- JS `s.toLowerCase()` (ASCII case mapping, like `Char.toLower`). -/
def jsLower (s : String) : String :=
  String.mk (s.data.map Char.toLower)

/-- JS `s.startsWith(pre)`. -/
def strStartsWith (s pre : String) : Bool :=
  pre.data.isPrefixOf s.data

/-- JS helper: `String(x).trim().toLowerCase().startsWith("t")`, the boolean
coercion used by the normalizer for the `isOut` column. -/
def jsBoolT (s : String) : Bool :=
  strStartsWith (jsLower (jsTrim s)) "t"

/-- JS helper: `String(x).toLowerCase().startsWith("t")` (no trim), the
coercion used when building the initial feeder override map. -/
def jsBoolNoTrim (s : String) : Bool :=
  strStartsWith (jsLower s) "t"

/-- Value of an optionally signed run of decimal digits, `none` when the
run is empty or contains a non-digit. -/
def parseNatChars (l : List Char) : Option Nat :=
  if l ≠ [] ∧ l.all Char.isDigit then
    some (l.foldl (fun n c => 10 * n + (c.toNat - 48)) 0)
  else none

/-- JS `Number(s)` on a string, restricted to optionally signed decimal
integer literals: `none` models a non-finite result (`NaN`).  An empty or
all-whitespace string coerces to `0`, as `Number("")` does in JS. -/
def jsNumber (s : String) : Option Int :=
  match trimChars s.data with
  | [] => some 0
  | '-' :: ds => (parseNatChars ds).map fun n => -(n : Int)
  | '+' :: ds => (parseNatChars ds).map fun n => (n : Int)
  | ds => (parseNatChars ds).map fun n => (n : Int)

/-- Lexicographic (codepoint) order on character lists, modelling
ascending `localeCompare`. -/
def lexLe : List Char → List Char → Bool
  | [], _ => true
  | _ :: _, [] => false
  | a :: as, b :: bs => if a = b then lexLe as bs else a < b

/-- Strict lexicographic (codepoint) order on character lists. -/
def lexLt : List Char → List Char → Bool
  | _, [] => false
  | [], _ :: _ => true
  | a :: as, b :: bs => if a = b then lexLt as bs else a < b

/-- Comparator model of `a.localeCompare(b) <= 0`. -/
def strLe (a b : String) : Bool :=
  lexLe a.data b.data

/-- Comparator model of `a.localeCompare(b) < 0`. -/
def strLt (a b : String) : Bool :=
  lexLt a.data b.data

/-- Floor of `num / den + 1 / 2` in exact integer arithmetic: this is JS
`Math.round (num / den)` (round half toward positive infinity) for
`den > 0`, since `num / den + 1 / 2 = (2 * num + den) / (2 * den)`. -/
def jsRound (num den : Int) : Int :=
  Int.fdiv (2 * num + den) (2 * den)

/-- Rounding of `num / den` to the nearest integer with halves away from
zero.  This follows the specification's words ("round-half-away-from-zero
semantics"); it is to be compared against `jsRound`. -/
def haRound (num den : Int) : Int :=
  if 0 ≤ num then jsRound num den else -(jsRound (-num) den)

/-- Lookup in a JS object used as a string-keyed boolean map:
`!!(m[k])`, with a missing key (undefined) coercing to `false`. -/
def lookupB : List (String × Bool) → String → Bool
  | [], _ => false
  | p :: m, k => if p.1 = k then p.2 else lookupB m k

/-- JS object property assignment `m[k] = v`: replace the value in place
when the key exists, append the key otherwise. -/
def setKey : List (String × Bool) → String → Bool → List (String × Bool)
  | [], k, v => [(k, v)]
  | p :: m, k, v => if p.1 = k then (k, v) :: m else p :: setKey m k v

/-- The feeder toggle `setFeederOut(prev => ({ ...prev, [name]: !prev[name] }))`
on the override map itself. -/
def toggleFeederMap (m : List (String × Bool)) (nm : String) : List (String × Bool) :=
  setKey m nm (!(lookupB m nm))

/-- Substring search on character lists, used to model
`String.prototype.includes`. -/
def listIncludes (needle : List Char) : List Char → Bool
  | [] => needle.isEmpty
  | c :: t => needle.isPrefixOf (c :: t) || listIncludes needle t

/-- JS `hay.includes(needle)`. -/
def strIncludes (hay needle : String) : Bool :=
  listIncludes needle.data hay.data

/-- Insertion step of the stable insertion sort modelling
`Array.prototype.sort` with a comparator. -/
def insertB (le : α → α → Bool) (a : α) : List α → List α
  | [] => [a]
  | b :: l => if le a b then a :: b :: l else b :: insertB le a l

/-- Stable comparator sort modelling `Array.prototype.sort`. -/
def sortByB (le : α → α → Bool) : List α → List α
  | [] => []
  | a :: l => insertB le a (sortByB le l)

/-- Canonical Station record produced by the normalizer:
`{id, feeder, name, consumers, isOut}`. -/
structure Station where
  id : String
  feeder : String
  name : String
  consumers : Int
  isOut : Bool
deriving DecidableEq, Repr

/-- Effective outage of a station, translated from the aggregation loop:
`const f = (s.feeder || "Unassigned").toString();`
`const effOut = !!(feederOut[f]) || !!s.isOut;`. -/
def effOutOf (feederOut : List (String × Bool)) (s : Station) : Bool :=
  lookupB feederOut (jsOr s.feeder "Unassigned") || s.isOut

/-- Feeder group accumulated by the aggregation loop: the grouped stations
carry their computed `effOut` (`{ ...s, effOut }` is the pair). -/
structure Group where
  name : String
  stations : List (Station × Bool)
  total : Int
  affected : Int
  healthy : Int
deriving DecidableEq, Repr

/-- Global totals of the aggregation.  `pctTenths` is the exact value of
the source's `pct` multiplied by 10 (the source divides the rounded value
by the constant 10 for display). -/
structure Totals where
  total : Int
  affected : Int
  healthy : Int
  pctTenths : Int
deriving DecidableEq, Repr

/-- Result of the `{ feeders, totals }` useMemo. -/
structure Agg where
  feeders : List Group
  totals : Totals
deriving DecidableEq, Repr

/-- One iteration of the grouping loop: find or create the group of
`s.feeder || "Unassigned"`, push `{ ...s, effOut }`, and accumulate the
consumer sums (`Number(s.consumers) || 0` is just `s.consumers` on our
integer model). -/
def addToGroups (F : List (String × Bool)) (gs : List Group) (s : Station) : List Group :=
  if gs.any fun g => g.name = jsOr s.feeder "Unassigned" then
    gs.map fun g =>
      if g.name = jsOr s.feeder "Unassigned" then
        { g with
          stations := g.stations ++ [(s, effOutOf F s)],
          total := g.total + s.consumers,
          affected := if effOutOf F s then g.affected + s.consumers else g.affected }
      else g
  else
    gs ++ [{ name := jsOr s.feeder "Unassigned", stations := [(s, effOutOf F s)],
             total := s.consumers,
             affected := if effOutOf F s then s.consumers else 0, healthy := 0 }]

/-- Global consumer total accumulated by the loop. -/
def aggTotal (sts : List Station) : Int :=
  sts.foldl (fun acc s => acc + s.consumers) 0

/-- Global affected-consumer total accumulated by the loop. -/
def aggAffected (F : List (String × Bool)) (sts : List Station) : Int :=
  sts.foldl (fun acc s => if effOutOf F s then acc + s.consumers else acc) 0

/-- The source's `total > 0 ? Math.round(((affected / total) * 100) * 10) / 10 : 0`,
in tenths: `(affected / total) * 100 * 10 = (affected * 1000) / total`. -/
def pctOf (affected total : Int) : Int :=
  if 0 < total then jsRound (affected * 1000) total else 0

/-- The aggregation engine: the `{ feeders, totals }` useMemo shared
verbatim by OutageConsumersDashboard2.jsx (both components in the file),
OutageConsumersDashboard4.jsx and the viewer/admin component.  Groups get
`healthy = total - affected` and are sorted by name
(`localeCompare` ascending). -/
def aggregate (sts : List Station) (F : List (String × Bool)) : Agg :=
  let gs := (sts.foldl (addToGroups F) []).map fun g =>
    { g with healthy := g.total - g.affected }
  { feeders := sortByB (fun a b => strLe a.name b.name) gs,
    totals :=
      { total := aggTotal sts,
        affected := aggAffected F sts,
        healthy := aggTotal sts - aggAffected F sts,
        pctTenths := pctOf (aggAffected F sts) (aggTotal sts) } }

/-- Flat table row: `{ feeder: f.name, feederEffOut: !!feederOut[f.name], ...s }`.
Note that the spread `...s` comes last, so the station's own (raw) `feeder`
field overwrites the explicit `feeder: f.name` entry. -/
structure FlatRow where
  feeder : String
  feederEffOut : Bool
  id : String
  name : String
  consumers : Int
  isOut : Bool
  effOut : Bool
deriving DecidableEq, Repr

/-- The `flatRows` useMemo: flatten the grouped stations. -/
def flatRows (sts : List Station) (F : List (String × Bool)) : List FlatRow :=
  ((aggregate sts F).feeders.map fun g =>
    g.stations.map fun p =>
      { feeder := p.1.feeder,
        feederEffOut := lookupB F g.name,
        id := p.1.id, name := p.1.name, consumers := p.1.consumers,
        isOut := p.1.isOut, effOut := p.2 }).flatten

/-- The `filteredRows` useMemo of the viewer/admin component and of the
second (simple light) component of OutageConsumersDashboard2.jsx: feeder
scope, case-insensitive needle over station and feeder name, optional
affected-only restriction, then a sort by station name. -/
def filteredRows (sts : List Station) (F : List (String × Bool))
    (selectedFeeder q : String) (showAffectedOnly : Bool) : List FlatRow :=
  let needle := jsLower (jsTrim q)
  let rows := flatRows sts F
  let rows := if selectedFeeder ≠ "ALL" then rows.filter fun r => r.feeder = selectedFeeder else rows
  let rows := if needle ≠ "" then
    rows.filter fun r => strIncludes (jsLower r.name) needle || strIncludes (jsLower r.feeder) needle
    else rows
  let rows := if showAffectedOnly then rows.filter fun r => r.effOut else rows
  sortByB (fun a b => strLe a.name b.name) rows

/-- The `filteredRows` useMemo of OutageConsumersDashboard4.jsx: same
needle and affected-only filters (no feeder scope), but sorted by feeder
name first and station name second
(`a.feeder.localeCompare(b.feeder) || a.name.localeCompare(b.name)`). -/
def filteredRowsD4 (sts : List Station) (F : List (String × Bool))
    (q : String) (showAffectedOnly : Bool) : List FlatRow :=
  let needle := jsLower (jsTrim q)
  let rows := flatRows sts F
  let rows := if needle ≠ "" then
    rows.filter fun r => strIncludes (jsLower r.name) needle || strIncludes (jsLower r.feeder) needle
    else rows
  let rows := if showAffectedOnly then rows.filter fun r => r.effOut else rows
  sortByB (fun a b => strLt a.feeder b.feeder || (a.feeder = b.feeder && strLe a.name b.name)) rows

/-- Page count: `Math.max(1, Math.ceil(filteredRows.length / pageSize))`
(for a positive page size, as guaranteed by the page-size presets). -/
def totalPages (len ps : Nat) : Nat :=
  max 1 ((len + ps - 1) / ps)

/-- The reset effect
`useEffect(() => { if (page > totalPages) setPage(1); }, [filteredRows.length, pageSize])`
shared by OutageConsumersDashboard2.jsx, OutageConsumersDashboard4.jsx and
the viewer/admin component: the page observed after the filtered length or
page size changes. -/
def pageAfterChange (page len ps : Nat) : Nat :=
  if page > totalPages len ps then 1 else page

/-- Imported row as delivered by the CSV parser, all optional fields; a
missing column is `none`.  Cell values are modelled as strings (the
`dynamicTyping` variants receive numbers or booleans for numeric-looking
cells, which the string coercions below subsume at the granularity used
by the claims). -/
structure Row where
  id : Option String := none
  feeder : Option String := none
  bay : Option String := none
  feeder_name : Option String := none
  name : Option String := none
  station : Option String := none
  substation : Option String := none
  consumers : Option String := none
  consumer_count : Option String := none
  count : Option String := none
  isOut : Option String := none
  outage : Option String := none
  feeder_isOut : Option String := none
deriving DecidableEq, Repr

/-- Deterministic model of `crypto.randomUUID()`: a fresh identifier from
the row position. -/
def genId (i : Nat) : String :=
  "uuid-" ++ toString i

/-- Resolved display name of a row:
`(row.name ?? row.station ?? row.substation ?? "").toString().trim()`. -/
def resolvedName (r : Row) : String :=
  jsTrim ((r.name <|> r.station <|> r.substation).getD "")

/-- Resolved consumers of a row:
`Number(row.consumers ?? row.consumer_count ?? row.count ?? 0)`;
`none` models a non-finite result. -/
def resolvedCons (r : Row) : Option Int :=
  match r.consumers <|> r.consumer_count <|> r.count with
  | some s => jsNumber s
  | none => some 0

/-- Normalized record before the finiteness filter; `consumersN = none`
models `consumers = NaN`. -/
structure PreStation where
  id : String
  feeder : String
  name : String
  consumersN : Option Int
  isOut : Bool
deriving DecidableEq, Repr

/-- One mapped row of the normalizer (the body of the `.map(row => ...)`),
with `i` the row position used for the generated id. -/
def preOfRow (i : Nat) (r : Row) : PreStation :=
  { id := match r.id with
      | some s => if jsTrim s = "" then genId i else jsTrim s
      | none => genId i,
    feeder := jsTrim ((r.feeder <|> r.bay <|> r.feeder_name).getD "Unassigned"),
    name := resolvedName r,
    consumersN := resolvedCons r,
    isOut := jsBoolT ((r.isOut <|> r.outage).getD "false") }

/-- Final Station of a record that passed the finiteness filter. -/
def finishStation (p : PreStation) : Station :=
  { id := p.id, feeder := p.feeder, name := p.name,
    consumers := p.consumersN.getD 0, isOut := p.isOut }

/-- Indexed map of `preOfRow` over a row list starting at position `i`
(models `data.map(row => ...)` with its positional fresh ids). -/
def preMap (i : Nat) : List Row → List PreStation
  | [] => []
  | r :: rs => preOfRow i r :: preMap (i + 1) rs

/-- The `importCsv` normalizer of the first (light) component of
OutageConsumersDashboard2.jsx (and, with fewer fields, of the dark and
updated-colors components): map every row, then
`.filter(r => r.name && Number.isFinite(r.consumers))`. -/
def importCsv (rows : List Row) : List Station :=
  ((preMap 0 rows).filter fun p => p.name ≠ "" && p.consumersN.isSome).map finishStation

/-- Raw keep test of `applyParsedRows`:
`parsed.filter(r => r.name && Number.isFinite(Number(r.consumers)))`,
evaluated on the raw row before any alias resolution or trimming. -/
def rawKeep (r : Row) : Bool :=
  (match r.name with
    | some s => s ≠ ""
    | none => false)
  && (match r.consumers with
    | some s => (jsNumber s).isSome
    | none => false)

/-- Indexed map producing finished stations, for the filter-first
normalizer. -/
def stationMap (i : Nat) : List Row → List Station
  | [] => []
  | r :: rs => finishStation (preOfRow i r) :: stationMap (i + 1) rs

/-- The `applyParsedRows` normalizer of the viewer/admin component, the
second component of OutageConsumersDashboard2.jsx and
OutageConsumersDashboard4.jsx: filter raw rows first, then map. -/
def applyParsedRows (rows : List Row) : List Station :=
  stationMap 0 (rows.filter rawKeep)

/-- Following the specification wording for the normalizer: keep exactly
the rows whose resolved trimmed name is non-empty and whose resolved
consumers value coerces to a finite number, and normalize those. -/
def specNormalize (i : Nat) : List Row → List Station
  | [] => []
  | r :: rs =>
    if resolvedName r ≠ "" && (resolvedCons r).isSome then
      finishStation (preOfRow i r) :: specNormalize (i + 1) rs
    else
      specNormalize (i + 1) rs

/-- The initial feeder override map built right after import:
`for (const r of parsed) initialFeederOut[r.feeder] = String((r.feeder_isOut ?? "false")).toLowerCase().startsWith("t")`.
The loop runs over the already-normalized records, which carry no
`feeder_isOut` field (the normalizer keeps only id, feeder, name,
consumers, isOut), so the access is always undefined and the written
value is always the coercion of `"false"`. -/
def initialFeederOut (parsed : List Station) : List (String × Bool) :=
  parsed.foldl (fun m r => setKey m r.feeder (jsBoolNoTrim ((none : Option String).getD "false"))) []

/-- Totals of the dark-mode and updated-colors components, which have no
feeder concept: `affected` counts only the stations' own `isOut` flags. -/
def simpleTotals (sts : List Station) : Totals :=
  let total := sts.foldl (fun acc x => acc + x.consumers) 0
  let affected := (sts.filter fun s => s.isOut).foldl (fun acc x => acc + x.consumers) 0
  { total := total, affected := affected, healthy := total - affected,
    pctTenths := pctOf affected total }

/-- In-memory dashboard state: the Station set and the feeder override
map. -/
structure AppState where
  stations : List Station
  feederOut : List (String × Bool)
deriving DecidableEq, Repr

/-- The `toggleFeeder` action of the writable dashboards. -/
def toggleFeeder (st : AppState) (nm : String) : AppState :=
  { st with feederOut := toggleFeederMap st.feederOut nm }

/-- The `toggleStation` action of the writable dashboards. -/
def toggleStation (st : AppState) (i : String) : AppState :=
  { st with stations := st.stations.map fun s =>
      if s.id = i then { s with isOut := !s.isOut } else s }

/-- The `toggleFeeder` action of the viewer/admin component, gated by
`if (viewerOnly) return;`. -/
def toggleFeederP0 (viewerOnly : Bool) (st : AppState) (nm : String) : AppState :=
  if viewerOnly then st else toggleFeeder st nm

/-- The `toggleStation` action of the viewer/admin component, gated by
`if (viewerOnly) return;`. -/
def toggleStationP0 (viewerOnly : Bool) (st : AppState) (i : String) : AppState :=
  if viewerOnly then st else toggleStation st i

/-- Body of a snapshot publish request: every numeric field optional.
Percentages are carried in tenths, like `Totals.pctTenths`. -/
structure PublishBody where
  affected : Option Int := none
  total : Option Int := none
  healthy : Option Int := none
  pctTenths : Option Int := none
  subsOff : Option Int := none
  subsOn : Option Int := none
  subsTotal : Option Int := none
  offPctTenths : Option Int := none
deriving DecidableEq, Repr

/-- Stored snapshot payload.  `pctTenths`/`offPctTenths` are `Option`
valued: `none` models the `NaN` produced when the percentage has to be
derived but the needed numerator field is absent. -/
structure Payload where
  affected : Int
  total : Int
  healthy : Int
  pctTenths : Option Int
  subsOff : Int
  subsOn : Int
  subsTotal : Int
  offPctTenths : Option Int
  updatedAt : String
deriving DecidableEq, Repr

/-- The payload construction of the publish endpoint, translated field by
field; `now` is the `new Date().toISOString()` stamp. -/
def buildPayload (b : PublishBody) (now : String) : Payload :=
  { affected := b.affected.getD 0,
    total := b.total.getD 0,
    healthy := b.healthy.getD (max 0 (b.total.getD 0 - b.affected.getD 0)),
    pctTenths :=
      match b.pctTenths with
      | some p => some p
      | none =>
        match b.total with
        | some t =>
          if t ≠ 0 then
            match b.affected with
            | some a => some (jsRound (a * 1000) t)
            | none => none
          else some 0
        | none => some 0,
    subsOff := b.subsOff.getD 0,
    subsOn := b.subsOn.getD 0,
    subsTotal := b.subsTotal.getD (b.subsOff.getD 0 + b.subsOn.getD 0),
    offPctTenths :=
      match b.offPctTenths with
      | some p => some p
      | none =>
        match b.subsTotal with
        | some t =>
          if t ≠ 0 then
            match b.subsOff with
            | some a => some (jsRound (a * 1000) t)
            | none => none
          else some 0
        | none => some 0,
    updatedAt := now }

/-- The publish endpoint as a step on the snapshot store: a body that
fails to parse as JSON (`none`) is answered 400 and leaves the store
untouched; a parsed body is answered 200 after the payload is stored. -/
def publishStep (store : Option Payload) (req : Option PublishBody) (now : String) :
    Option Payload × Nat :=
  match req with
  | none => (store, 400)
  | some b => (some (buildPayload b now), 200)

/-- Consumer sum of a list of grouped stations (specification side:
"the sum of the consumers of the stations grouped under that feeder"). -/
def sumCons (l : List (Station × Bool)) : Int :=
  (l.map fun p => p.1.consumers).sum

/-- Bookkeeping invariant of a feeder group during the aggregation loop:
the accumulated totals match the stored stations, and each stored flag is
the station's effective outage. -/
def GroupOk (F : List (String × Bool)) (g : Group) : Prop :=
  g.total = sumCons g.stations ∧
  g.affected = sumCons (g.stations.filter fun p => p.2) ∧
  ∀ p ∈ g.stations, p.2 = effOutOf F p.1

/-- Station list of the pagination example: 120 stations on one feeder, of
which exactly the last ten match the needle "zz". -/
def ex120 : List Station :=
  (List.range 120).map fun i =>
    { id := toString i, feeder := "F",
      name := (if i < 110 then "x" else "zz") ++ toString i,
      consumers := 1, isOut := false }

/-! ### Helper lemmas on the map, sort and grouping primitives -/

theorem lookupB_setKey (m : List (String × Bool)) (k : String) (v : Bool) (j : String) :
    lookupB (setKey m k v) j = if j = k then v else lookupB m j := by
  induction m with
  | nil =>
    rcases eq_or_ne j k with h | h
    · subst h; simp [setKey, lookupB]
    · simp [setKey, lookupB, h, Ne.symm h]
  | cons p m ih =>
    rcases eq_or_ne p.1 k with hp | hp
    · rcases eq_or_ne j k with h | h
      · subst h
        simp [setKey, lookupB, hp]
      · have hpj : p.1 ≠ j := by rw [hp]; exact Ne.symm h
        simp [setKey, lookupB, hp, h, Ne.symm h, hpj]
    · rcases eq_or_ne j k with h | h
      · subst h
        simp [setKey, lookupB, hp, ih]
      · simp [setKey, lookupB, hp, ih, h]

theorem lookupB_toggleFeederMap (m : List (String × Bool)) (nm k : String) :
    lookupB (toggleFeederMap m nm) k = if k = nm then !(lookupB m nm) else lookupB m k := by
  simp [toggleFeederMap, lookupB_setKey]

theorem lookupB_toggle_toggle (m : List (String × Bool)) (nm k : String) :
    lookupB (toggleFeederMap (toggleFeederMap m nm) nm) k = lookupB m k := by
  rcases eq_or_ne k nm with h | h <;>
    simp [lookupB_toggleFeederMap, h]

theorem mem_insertB (le : α → α → Bool) (a x : α) (l : List α) :
    x ∈ insertB le a l ↔ x = a ∨ x ∈ l := by
  induction l with
  | nil => simp [insertB]
  | cons b l ih =>
    by_cases h : le a b = true
    · simp [insertB, h]
    · simp [insertB, h, ih]
      tauto

theorem mem_sortByB (le : α → α → Bool) (x : α) (l : List α) :
    x ∈ sortByB le l ↔ x ∈ l := by
  induction l with
  | nil => simp [sortByB]
  | cons a l ih => simp [sortByB, mem_insertB, ih]

theorem sumCons_append_single (l : List (Station × Bool)) (p : Station × Bool) :
    sumCons (l ++ [p]) = sumCons l + p.1.consumers := by
  simp [sumCons]

theorem groupOk_addToGroups (F : List (String × Bool)) (gs : List Group) (s : Station)
    (h : ∀ g ∈ gs, GroupOk F g) :
    ∀ g ∈ addToGroups F gs s, GroupOk F g := by
  intro g hg
  unfold addToGroups at hg
  by_cases hex : gs.any (fun g => g.name = jsOr s.feeder "Unassigned") = true
  · rw [if_pos hex] at hg
    obtain ⟨g₀, hg₀, rfl⟩ := List.mem_map.mp hg
    by_cases hname : g₀.name = jsOr s.feeder "Unassigned"
    · obtain ⟨h1, h2, h3⟩ := h g₀ hg₀
      simp only [if_pos (by simpa using hname)]
      refine ⟨?_, ?_, ?_⟩
      · simp [sumCons_append_single, h1]
      · by_cases heff : effOutOf F s = true
        · simp [List.filter_append, heff, sumCons_append_single, h2]
        · simp [List.filter_append, heff, sumCons, h2]
      · intro p hp
        rcases List.mem_append.mp hp with hp | hp
        · exact h3 p hp
        · simp at hp
          subst hp
          rfl
    · simp only [if_neg (by simpa using hname)]
      exact h g₀ hg₀
  · rw [if_neg hex] at hg
    rcases List.mem_append.mp hg with hg | hg
    · exact h g hg
    · simp at hg
      subst hg
      refine ⟨by simp [sumCons], ?_, ?_⟩
      · by_cases heff : effOutOf F s = true <;> simp [sumCons, heff]
      · intro p hp
        simp at hp
        subst hp
        rfl

theorem groupOk_foldl (F : List (String × Bool)) (sts : List Station) :
    ∀ (gs : List Group), (∀ g ∈ gs, GroupOk F g) →
      ∀ g ∈ sts.foldl (addToGroups F) gs, GroupOk F g := by
  induction sts with
  | nil => intro gs h; simpa using h
  | cons s sts ih =>
    intro gs h
    simpa using ih (addToGroups F gs s) (groupOk_addToGroups F gs s h)

theorem aggregate_group_ok (sts : List Station) (F : List (String × Bool)) :
    ∀ g ∈ (aggregate sts F).feeders,
      g.total = sumCons g.stations ∧
      g.affected = sumCons (g.stations.filter fun p => p.2) ∧
      g.healthy = g.total - g.affected ∧
      ∀ p ∈ g.stations, p.2 = effOutOf F p.1 := by
  intro g hg
  unfold aggregate at hg
  simp only [mem_sortByB, List.mem_map] at hg
  obtain ⟨g₀, hg₀, rfl⟩ := hg
  obtain ⟨h1, h2, h3⟩ := groupOk_foldl F sts [] (by simp) g₀ hg₀
  exact ⟨h1, h2, rfl, h3⟩

theorem foldl_filter_isOut (sts : List Station) (init : Int) :
    (sts.filter fun s => s.isOut).foldl (fun acc x => acc + x.consumers) init
      = sts.foldl (fun acc s => if s.isOut then acc + s.consumers else acc) init := by
  induction sts generalizing init with
  | nil => rfl
  | cons s sts ih => by_cases h : s.isOut = true <;> simp [List.filter_cons, h, ih]

theorem aggAffected_nil (sts : List Station) :
    aggAffected [] sts = sts.foldl (fun acc s => if s.isOut then acc + s.consumers else acc) 0 := by
  unfold aggAffected
  simp [effOutOf, lookupB]

theorem simpleTotals_eq_aggregate (sts : List Station) :
    simpleTotals sts = (aggregate sts []).totals := by
  have ha : ((sts.filter fun s => s.isOut).foldl (fun acc x => acc + x.consumers) 0)
      = aggAffected [] sts := by
    rw [foldl_filter_isOut, aggAffected_nil]
  simp only [simpleTotals, aggregate, ha]
  rfl

theorem importCsv_eq_spec (i : Nat) (rows : List Row) :
    ((preMap i rows).filter fun p => p.name ≠ "" && p.consumersN.isSome).map finishStation
      = specNormalize i rows := by
  induction rows generalizing i with
  | nil => rfl
  | cons r rs ih =>
    have hname : (preOfRow i r).name = resolvedName r := rfl
    have hcons : (preOfRow i r).consumersN = resolvedCons r := rfl
    by_cases hp : resolvedName r = "" <;> by_cases hq : (resolvedCons r).isSome = true <;>
      simp [preMap, specNormalize, List.filter_cons, hname, hcons, hp, hq] <;>
      simpa using ih (i + 1)

theorem aggregate_total (sts : List Station) (F : List (String × Bool)) :
    (aggregate sts F).totals.total = aggTotal sts := rfl

theorem aggregate_affected (sts : List Station) (F : List (String × Bool)) :
    (aggregate sts F).totals.affected = aggAffected F sts := rfl

theorem aggregate_healthy (sts : List Station) (F : List (String × Bool)) :
    (aggregate sts F).totals.healthy = aggTotal sts - aggAffected F sts := rfl

theorem aggregate_pctTenths (sts : List Station) (F : List (String × Bool)) :
    (aggregate sts F).totals.pctTenths = pctOf (aggAffected F sts) (aggTotal sts) := rfl

theorem initialFeederOut_foldl_false (sts : List Station) (m : List (String × Bool))
    (hm : ∀ j, lookupB m j = false) :
    ∀ k, lookupB (sts.foldl (fun m r =>
        setKey m r.feeder (jsBoolNoTrim ((none : Option String).getD "false"))) m) k = false := by
  induction sts generalizing m with
  | nil => simpa using hm
  | cons s sts ih =>
    intro k
    simp only [List.foldl_cons]
    refine ih _ ?_ k
    intro j
    rw [lookupB_setKey]
    split
    · decide
    · exact hm j

/-! ### Claim theorems -/

/-- Claim C1, counterexample.  The claim states that the effective outage
flag of every station `s` equals `F[s.feeder] OR s.isOut`.  This fails for
a station whose feeder field is the empty string (producible by importing
a whitespace-only feeder cell): the aggregation looks the override up
under the sentinel `"Unassigned"` (`s.feeder || "Unassigned"`), not under
`s.feeder` itself.  With `F = [("Unassigned", true)]` and a station with
`feeder = ""` and `isOut = false`, the computed effective flag is `true`
while `F[s.feeder] OR s.isOut` is `false`. -/
theorem c1_counterexample :
    effOutOf [("Unassigned", true)] ⟨"i", "", "S", 1, false⟩ = true
    ∧ (lookupB [("Unassigned", true)] (Station.feeder ⟨"i", "", "S", 1, false⟩)
        || Station.isOut ⟨"i", "", "S", 1, false⟩) = false
    ∧ ((aggregate [⟨"i", "", "S", 1, false⟩] [("Unassigned", true)]).feeders.map
        fun g => g.stations.map fun p => p.2) = [[true]] :=
  ⟨by decide, by decide, by decide⟩

/-- Claim C1, amended.  For every station in the aggregation output the
stored effective flag equals `F[s.feeder || "Unassigned"] OR s.isOut`
(missing override entries reading as false); the feeder toggle never
mutates the station list; and after toggling a feeder OFF and back ON,
every station of that feeder whose override was initially OFF=false reads
an effective status equal to its own `isOut` flag. -/
theorem c1_amended (sts : List Station) (F : List (String × Bool)) (nm : String) :
    (∀ g ∈ (aggregate sts F).feeders, ∀ p ∈ g.stations,
        p.2 = (lookupB F (jsOr p.1.feeder "Unassigned") || p.1.isOut))
    ∧ (toggleFeeder (toggleFeeder ⟨sts, F⟩ nm) nm).stations = sts
    ∧ (∀ s : Station, jsOr s.feeder "Unassigned" = nm → lookupB F nm = false →
        effOutOf (toggleFeederMap (toggleFeederMap F nm) nm) s = s.isOut) := by
  refine ⟨?_, rfl, ?_⟩
  · intro g hg p hp
    have h := (aggregate_group_ok sts F g hg).2.2.2 p hp
    simpa [effOutOf] using h
  · intro s hs hF
    simp [effOutOf, lookupB_toggle_toggle, hs, hF]

/-- Claim C1, witness: the amended theorem applied to one station on
feeder "F2" with no overrides, toggling "F2" OFF and ON. -/
theorem c1_amended_witness :
    (((⟨"1", "F2", "S1", 100, false⟩ : Station), false).2
        = (lookupB [] (jsOr (⟨"1", "F2", "S1", 100, false⟩ : Station).feeder "Unassigned")
            || (⟨"1", "F2", "S1", 100, false⟩ : Station).isOut))
    ∧ (toggleFeeder (toggleFeeder ⟨[⟨"1", "F2", "S1", 100, false⟩], []⟩ "F2") "F2").stations
        = [⟨"1", "F2", "S1", 100, false⟩]
    ∧ effOutOf (toggleFeederMap (toggleFeederMap [] "F2") "F2") ⟨"1", "F2", "S1", 100, false⟩
        = (⟨"1", "F2", "S1", 100, false⟩ : Station).isOut := by
  obtain ⟨h1, h2, h3⟩ := c1_amended [⟨"1", "F2", "S1", 100, false⟩] [] "F2"
  exact ⟨h1 ⟨"F2", [(⟨"1", "F2", "S1", 100, false⟩, false)], 100, 0, 100⟩ (by decide)
           (⟨"1", "F2", "S1", 100, false⟩, false) (by decide),
         h2, h3 ⟨"1", "F2", "S1", 100, false⟩ (by decide) (by decide)⟩

/-- Claim C2 (confirmed).  For every station list and override map the
global totals satisfy `affected + healthy = total` exactly, and every
feeder group of the output has `total` equal to the consumer sum of its
grouped stations and `affected + healthy = total`. -/
theorem c2_conservation (sts : List Station) (F : List (String × Bool)) :
    ((aggregate sts F).totals.affected + (aggregate sts F).totals.healthy
        = (aggregate sts F).totals.total)
    ∧ ∀ g ∈ (aggregate sts F).feeders,
        g.total = sumCons g.stations ∧ g.affected + g.healthy = g.total := by
  constructor
  · rw [aggregate_affected, aggregate_healthy, aggregate_total]
    omega
  · intro g hg
    obtain ⟨h1, h2, h3, h4⟩ := aggregate_group_ok sts F g hg
    exact ⟨h1, by omega⟩

/-- Claim C2, witness: the conservation theorem applied to one station of
40 consumers on feeder "F1", with the resulting group. -/
theorem c2_witness :
    ((aggregate [⟨"1", "F1", "S1", 40, true⟩] []).totals.affected
        + (aggregate [⟨"1", "F1", "S1", 40, true⟩] []).totals.healthy
        = (aggregate [⟨"1", "F1", "S1", 40, true⟩] []).totals.total)
    ∧ ((⟨"F1", [(⟨"1", "F1", "S1", 40, true⟩, true)], 40, 40, 0⟩ : Group).total
        = sumCons (⟨"F1", [(⟨"1", "F1", "S1", 40, true⟩, true)], 40, 40, 0⟩ : Group).stations
      ∧ (⟨"F1", [(⟨"1", "F1", "S1", 40, true⟩, true)], 40, 40, 0⟩ : Group).affected
          + (⟨"F1", [(⟨"1", "F1", "S1", 40, true⟩, true)], 40, 40, 0⟩ : Group).healthy
        = (⟨"F1", [(⟨"1", "F1", "S1", 40, true⟩, true)], 40, 40, 0⟩ : Group).total) := by
  obtain ⟨h1, h2⟩ := c2_conservation [⟨"1", "F1", "S1", 40, true⟩] []
  exact ⟨h1, h2 ⟨"F1", [(⟨"1", "F1", "S1", 40, true⟩, true)], 40, 40, 0⟩ (by decide)⟩

/-- Claim C3, counterexample.  The claim states that the normalizer keeps
exactly the rows whose resolved name (name | station | substation,
trimmed) is non-empty and whose resolved consumers coerce to a finite
number.  The `applyParsedRows` normalizer (viewer/admin component, simple
light component, Dashboard4) instead tests the raw `name` and `consumers`
fields before alias resolution: a row carrying its name only in the
`station` column and its count in `consumers` is dropped even though its
resolved name is `"S1"` and its resolved consumers are `5`. -/
theorem c3_counterexample :
    applyParsedRows [{ station := some "S1", consumers := some "5" }] = []
    ∧ resolvedName { station := some "S1", consumers := some "5" } = "S1"
    ∧ resolvedCons { station := some "S1", consumers := some "5" } = some 5 :=
  ⟨by decide, by decide, by decide⟩

/-- Claim C3, amended.  The `importCsv` normalizer of the first light
component produces exactly the rows with non-empty resolved trimmed name
and finite-coercing resolved consumers (and an empty import yields an
empty station set); the `applyParsedRows` normalizer instead filters on
the raw `name` and `consumers` fields before alias resolution, so an
alias-only row is dropped and a whitespace-only raw name is kept with an
empty resolved name. -/
theorem c3_amended :
    (∀ rows : List Row, importCsv rows = specNormalize 0 rows)
    ∧ importCsv ([] : List Row) = []
    ∧ applyParsedRows ([] : List Row) = []
    ∧ applyParsedRows [{ station := some "S1", consumers := some "5" }] = []
    ∧ importCsv [{ station := some "S1", consumers := some "5" }]
        = [⟨"uuid-0", "Unassigned", "S1", 5, false⟩]
    ∧ applyParsedRows [{ name := some " ", consumers := some "7" }]
        = [⟨"uuid-0", "Unassigned", "", 7, false⟩]
    ∧ importCsv [{ name := some " ", consumers := some "7" }] = [] := by
  exact ⟨fun rows => importCsv_eq_spec 0 rows, rfl, rfl, by decide, by decide, by decide, by decide⟩

/-- Claim C4, counterexample.  The claim states the `pct` statistic uses
round-half-away-from-zero on `value * 10`.  The source uses `Math.round`,
which rounds halves toward positive infinity; the two differ on negative
values, reachable because the normalizer accepts negative consumer
counts.  With stations of -1 (out) and 17 (in) consumers the exact value
is -6.25%, i.e. -62.5 tenths: the code stores -62 tenths while
half-away-from-zero gives -63 tenths. -/
theorem c4_counterexample :
    (aggregate [⟨"a", "F", "S1", -1, true⟩, ⟨"b", "F", "S2", 17, false⟩] []).totals.pctTenths = -62
    ∧ haRound
        ((aggregate [⟨"a", "F", "S1", -1, true⟩, ⟨"b", "F", "S2", 17, false⟩] []).totals.affected * 1000)
        (aggregate [⟨"a", "F", "S1", -1, true⟩, ⟨"b", "F", "S2", 17, false⟩] []).totals.total = -63 :=
  ⟨by decide, by decide⟩

/-- Claim C4, amended.  `pct` (in tenths) is `Math.round` — half toward
positive infinity — of `affected / total * 1000` when `total > 0`, and 0
when `total ≤ 0`; this coincides with round-half-away-from-zero whenever
`affected ≥ 0`; the claim's examples 1/3 → 33.3, 2/3 → 66.7 and
total = 0 → 0 all hold. -/
theorem c4_amended (sts : List Station) (F : List (String × Bool)) :
    (0 < (aggregate sts F).totals.total → 0 ≤ (aggregate sts F).totals.affected →
      (aggregate sts F).totals.pctTenths
        = haRound ((aggregate sts F).totals.affected * 1000) (aggregate sts F).totals.total)
    ∧ ((aggregate sts F).totals.total ≤ 0 → (aggregate sts F).totals.pctTenths = 0)
    ∧ (aggregate [⟨"a", "F1", "S1", 1, true⟩, ⟨"b", "F1", "S2", 2, false⟩] []).totals.pctTenths = 333
    ∧ (aggregate [⟨"a", "F1", "S1", 2, true⟩, ⟨"b", "F1", "S2", 1, false⟩] []).totals.pctTenths = 667
    ∧ (aggregate ([] : List Station) []).totals.pctTenths = 0 := by
  refine ⟨?_, ?_, by decide, by decide, by decide⟩
  · intro ht ha
    rw [aggregate_total] at ht
    rw [aggregate_affected] at ha
    rw [aggregate_pctTenths, aggregate_affected, aggregate_total]
    unfold pctOf haRound
    rw [if_pos ht, if_pos (mul_nonneg ha (by norm_num))]
  · intro ht
    rw [aggregate_total] at ht
    rw [aggregate_pctTenths]
    unfold pctOf
    rw [if_neg (by omega)]

/-- Claim C4, witness: the amended theorem applied to the 1-of-3 example
(hypotheses `0 < total` and `0 ≤ affected` discharged there), plus the
empty-input case of the `total ≤ 0` clause. -/
theorem c4_amended_witness :
    ((aggregate [⟨"a", "F1", "S1", 1, true⟩, ⟨"b", "F1", "S2", 2, false⟩] []).totals.pctTenths
      = haRound
          ((aggregate [⟨"a", "F1", "S1", 1, true⟩, ⟨"b", "F1", "S2", 2, false⟩] []).totals.affected * 1000)
          (aggregate [⟨"a", "F1", "S1", 1, true⟩, ⟨"b", "F1", "S2", 2, false⟩] []).totals.total)
    ∧ (aggregate ([] : List Station) []).totals.pctTenths = 0 :=
  ⟨(c4_amended [⟨"a", "F1", "S1", 1, true⟩, ⟨"b", "F1", "S2", 2, false⟩] []).1 (by decide) (by decide),
   (c4_amended [] []).2.1 (by decide)⟩

/-- Claim C5 (confirmed).  Whenever the current 1-indexed page exceeds the
page count of the (re)filtered row list, the reset effect sets the next
observable page to exactly 1; and the observable page never drops below
1. -/
theorem c5_page_reset (sts : List Station) (F : List (String × Bool))
    (scope q : String) (aff : Bool) (page ps : Nat) :
    (page > totalPages (filteredRows sts F scope q aff).length ps →
      pageAfterChange page (filteredRows sts F scope q aff).length ps = 1)
    ∧ (1 ≤ page → 1 ≤ pageAfterChange page (filteredRows sts F scope q aff).length ps) := by
  constructor
  · intro h
    simp [pageAfterChange, h]
  · intro h
    unfold pageAfterChange
    split
    · omega
    · omega

set_option maxRecDepth 400000 in
/-- Claim C5, witness: 120 stations at page size 50 make 3 pages; a filter
needle matching only 10 rows leaves page 3 out of range and the observed
page is 1. -/
theorem c5_page_reset_witness :
    pageAfterChange 3 (filteredRows ex120 [] "ALL" "zz" false).length 50 = 1
    ∧ totalPages 120 50 = 3
    ∧ (filteredRows ex120 [] "ALL" "zz" false).length = 10 :=
  ⟨(c5_page_reset ex120 [] "ALL" "zz" false 3 50).1 (by decide), by decide, by decide⟩

/-- Claim C6 (code bug).  The source's own comment says the optional CSV
column `feeder_isOut` sets the initial feeder override defaults, but the
initialization loop runs over the already-normalized records, which no
longer carry that column: the read is always undefined, so every feeder
initializes to `false` regardless of the imported override values.  In
particular importing a row with `feeder_isOut = "true"` still yields
`false` for its feeder. -/
theorem c6_override_column_dead :
    (∀ (sts : List Station) (k : String), lookupB (initialFeederOut sts) k = false)
    ∧ ({ feeder := some "F1", name := some "S1", consumers := some "10",
         feeder_isOut := some "true" } : Row).feeder_isOut = some "true"
    ∧ (applyParsedRows [{ feeder := some "F1", name := some "S1",
                          consumers := some "10",
                          feeder_isOut := some "true" }]).map (fun s => s.feeder) = ["F1"]
    ∧ lookupB (initialFeederOut (applyParsedRows
        [{ feeder := some "F1", name := some "S1",
           consumers := some "10",
           feeder_isOut := some "true" }])) "F1" = false := by
  refine ⟨?_, rfl, by decide, by decide⟩
  intro sts k
  exact initialFeederOut_foldl_false sts [] (fun j => rfl) k

/-- Claim C7 (confirmed).  The normalized `isOut` flag is exactly the
trim-lowercase-starts-with-"t" coercion of the first non-missing of
`isOut`, `outage`, or the default `"false"`; so `"true"`, `"T"` and
`"TRUE"` coerce to true while `"1"`, `"false"` and `"yes"` coerce to
false. -/
theorem c7_isOut_coercion :
    (∀ (i : Nat) (r : Row), (preOfRow i r).isOut
        = strStartsWith (jsLower (jsTrim ((r.isOut <|> r.outage).getD "false"))) "t")
    ∧ jsBoolT "true" = true ∧ jsBoolT "T" = true ∧ jsBoolT "TRUE" = true
    ∧ jsBoolT "1" = false ∧ jsBoolT "false" = false ∧ jsBoolT "yes" = false :=
  ⟨fun _ _ => rfl, by decide, by decide, by decide, by decide, by decide, by decide⟩

/-- Claim C8, counterexample.  The claim states that an omitted `healthy`
is stored as `total - affected` (the aggregation-engine formula).  The
endpoint stores `Math.max(0, total - affected)`: for the well-formed body
`affected = 7, total = 5` the stored `healthy` is 0, not -2. -/
theorem c8_counterexample :
    (buildPayload { affected := some 7, total := some 5 } "t0").healthy = 0
    ∧ ({ affected := some 7, total := some 5 } : PublishBody).total.getD 0
        - ({ affected := some 7, total := some 5 } : PublishBody).affected.getD 0 = -2 :=
  ⟨by decide, by decide⟩

/-- Claim C8, amended.  A malformed body is answered 400 with the store
untouched; a well-formed body is stored in one write with `updatedAt`
stamped; an omitted `healthy` is filled with `max 0 (total - affected)`
(clamped at zero, unlike the engine's plain subtraction), and an omitted
`pct` is filled by the engine's `Math.round`-based formula whenever
`affected` and a non-negative `total` are present. -/
theorem c8_amended (store : Option Payload) (b : PublishBody) (now : String) (a t : Int) :
    (publishStep store none now = (store, 400))
    ∧ (publishStep store (some b) now = (some (buildPayload b now), 200))
    ∧ ((buildPayload b now).updatedAt = now)
    ∧ (b.affected = some a → b.total = some t → b.healthy = none →
        (buildPayload b now).healthy = max 0 (t - a))
    ∧ (b.affected = some a → b.total = some t → b.pctTenths = none → 0 ≤ t →
        (buildPayload b now).pctTenths = some (pctOf a t)) := by
  refine ⟨rfl, rfl, rfl, ?_, ?_⟩
  · intro ha ht hh
    simp [buildPayload, ha, ht, hh]
  · intro ha ht hp htt
    rcases eq_or_lt_of_le htt with h0 | hpos
    · simp [buildPayload, ha, ht, hp, ← h0, pctOf]
    · simp [buildPayload, ha, ht, hp, pctOf, hpos, (by omega : t ≠ 0)]
      intro h0
      exact absurd h0 (by omega)

/-- Claim C8, witness: the amended theorem applied to a body with
`affected = 1, total = 3` and omitted `healthy` and `pct`, plus a
malformed request against an empty store. -/
theorem c8_amended_witness :
    ((buildPayload { affected := some 1, total := some 3 } "2025-10-11").healthy = max 0 (3 - 1))
    ∧ ((buildPayload { affected := some 1, total := some 3 } "2025-10-11").pctTenths
        = some (pctOf 1 3))
    ∧ publishStep (none : Option Payload) none "2025-10-11" = (none, 400) :=
  ⟨(c8_amended none { affected := some 1, total := some 3 } "2025-10-11" 1 3).2.2.2.1 rfl rfl rfl,
   (c8_amended none { affected := some 1, total := some 3 } "2025-10-11" 1 3).2.2.2.2 rfl rfl rfl
     (by decide),
   (c8_amended none { affected := some 1, total := some 3 } "2025-10-11" 1 3).1⟩

/-- Claim C9, counterexample.  The claim states all front-end variants
compute the same totals on identical inputs.  The dark-mode and
updated-colors variants have no feeder concept and ignore the override
map: with one healthy 10-consumer station on feeder "F1" forced OFF, the
feeder-aware engine reports 10 affected consumers, the simple variants
report 0. -/
theorem c9_counterexample :
    (aggregate [⟨"1", "F1", "S1", 10, false⟩] [("F1", true)]).totals.affected = 10
    ∧ (simpleTotals [⟨"1", "F1", "S1", 10, false⟩]).affected = 0 :=
  ⟨by decide, by decide⟩

/-- Claim C9, amended.  The simple variants agree with the feeder-aware
engine exactly when no feeder override is set (their totals equal the
engine's totals at the empty override map), and the feeder-aware
variants' filtered rows agree as sets: at the all-feeders scope the
viewer/admin filtering and the Dashboard4 filtering keep exactly the same
rows, differing only in sort order (name versus feeder-then-name). -/
theorem c9_amended :
    (∀ sts : List Station, simpleTotals sts = (aggregate sts []).totals)
    ∧ ∀ (sts : List Station) (F : List (String × Bool)) (q : String) (aff : Bool) (r : FlatRow),
        r ∈ filteredRows sts F "ALL" q aff ↔ r ∈ filteredRowsD4 sts F q aff := by
  refine ⟨simpleTotals_eq_aggregate, ?_⟩
  intro sts F q aff r
  unfold filteredRows filteredRowsD4
  simp [mem_sortByB]

/-- Claim C10 (confirmed).  With viewer mode active, the viewer/admin
component's feeder and station toggles are no-ops: they return the state
unchanged for every key and station id. -/
theorem c10_viewer_noop (st : AppState) (nm i : String) :
    toggleFeederP0 true st nm = st ∧ toggleStationP0 true st i = st :=
  ⟨rfl, rfl⟩

end Outage
